import Mathlib

/-!
Verification of the SynthNVProDriver transaction protocol layer.

Shallow embedding of the sources:
- `src/NVPcommand.py` (class `NVPCommand`: `format`, `format_float`; the class
  `Command` in `src/command.py` used by the controller has a character-identical
  `format`/`format_float`, so one embedding serves both),
- `src/NVPserialconnection.py` (class `SerialConnection`: `reset_buffers`,
  `send`, `send_command`, `read_response`),
- `src/nvprocontroller.py` (class `SynthNVProController`: `send_command` and the
  typed accessors the claims cite).

Modelling conventions, stated once:
- Python `float` values are embedded as `ℚ`.  Python's float formatting rounds
  the underlying binary double; at the rational level this is rounding to the
  nearest multiple of `10 ^ -d` with ties to even, which `rhe` implements.
  (`ℚ` has no signed zero, so the `-0.0` corner of Python formatting is out of
  scope.)
- Python `str` values are embedded as `String`; `bytes` written to the serial
  port are the encoded string itself (`str.encode` is the identity on the
  ASCII text that occurs here).
- `float(s)` is embedded by `pyFloat?` / `pyFloatE` on the sign + digits +
  optional decimal point fragment of Python's grammar, the only fragment the
  device wire format produces; a failed parse models the `ValueError` that
  `float` raises.
- The serial port is a state: a list of buffered complete input lines (as
  `readline` would return them, terminator included) and the list of byte
  sequences written so far.  `readline` with an empty buffer returns `""`,
  which is exactly pyserial's timeout behaviour.  The instrument's reply is
  passed to each transaction as a `reply : List String` parameter and arrives
  (`deviceYields`) after the command write, mirroring a device that answers
  the command it was just sent.
- The controller state also carries the re-entrant lock's hold depth and an
  event log (`Event`): lock acquisition/release, buffer reset, write and
  line-read events, in program order.  The log is instrumentation used to
  state the temporal claim about lock scope.
- Exceptions are embedded as `Except String` results; code paths that raise
  before touching state return the state unchanged.
-/

/-- Characters stripped by Python's `str.strip()` with no argument. -/
def isPyWhite (c : Char) : Bool :=
  c == ' ' || c == '\t' || c == '\n' || c == '\r' || c == '\x0b' || c == '\x0c'

/-- Python `str.strip()` on a character list: drop whitespace at both ends. -/
def pyStripList (cs : List Char) : List Char :=
  ((cs.dropWhile isPyWhite).reverse.dropWhile isPyWhite).reverse

/-- Python `str.strip()`. -/
def pyStrip (s : String) : String := String.mk (pyStripList s.toList)

/-- Value of a most-significant-first digit run, threading an accumulator:
`digitsVal ['1','7','6'] 0 = 176`. -/
def digitsVal : List Char → ℕ → ℕ
  | [], acc => acc
  | c :: cs, acc => digitsVal cs (acc * 10 + (c.toNat - 48))

/-- Unsigned part of Python `float(s)`: digits with an optional decimal point
(`"176"`, `"10.5"`, `".5"`, `"5."`); anything else fails. -/
def parseUnsignedFloat (cs : List Char) : Option ℚ :=
  let ip := cs.takeWhile Char.isDigit
  match cs.dropWhile Char.isDigit with
  | [] => if ip.isEmpty then none else some ((digitsVal ip 0 : ℕ) : ℚ)
  | '.' :: frac =>
      if frac.all Char.isDigit && !(ip.isEmpty && frac.isEmpty) then
        some ((digitsVal ip 0 : ℕ) + ((digitsVal frac 0 : ℕ) : ℚ) / (10 : ℚ) ^ frac.length)
      else none
  | _ => none

/-- Signed part of Python `float(s)`: an optional sign then an unsigned
number; the empty string fails. -/
def pySignedParse : List Char → Option ℚ
  | [] => none
  | c :: rest =>
    if c = '-' then Option.map (fun q => -q) (parseUnsignedFloat rest)
    else if c = '+' then parseUnsignedFloat rest
    else parseUnsignedFloat (c :: rest)

/-- Python `float(s)` on the fixed-point fragment of its grammar: strip
whitespace, optional sign, unsigned number.  `none` models the `ValueError`
raised on anything else (in particular on `""` and on `"EOM."`). -/
def pyFloat? (s : String) : Option ℚ :=
  pySignedParse (pyStripList s.toList)

/-- Python `float(s)` as an `Except`, surfacing the `ValueError`. -/
def pyFloatE (r : String) : Except String ℚ :=
  match pyFloat? r with
  | some v => Except.ok v
  | none => Except.error ("could not convert string to float: " ++ r)

/-- Python `bool(s)` on a string: `False` exactly for the empty string. -/
def pyBoolStr (t : String) : Bool := !t.isEmpty

/-- Python `bool(x)` on an `Optional[str]`: `bool(None) = False`. -/
def pyBoolOptStr : Option String → Bool
  | none => false
  | some t => pyBoolStr t

/-- The ASCII digit character for `k % 10`. -/
def digitChar (k : ℕ) : Char := Char.ofNat (48 + k % 10)

/-- Decimal digit characters of `n`, most significant first, by repeated
division; `fuel` bounds the recursion and any `fuel ≥ n` is enough. -/
def natToDigitsAux : ℕ → ℕ → List Char → List Char
  | 0, _, acc => acc
  | fuel + 1, n, acc =>
      if n < 10 then digitChar n :: acc
      else natToDigitsAux fuel (n / 10) (digitChar n :: acc)

/-- Decimal digit characters of `n`, most significant first. -/
def natDigits (n : ℕ) : List Char := natToDigitsAux (n + 1) n []

/-- Python `str(n)` for a natural number. -/
def natToStr (n : ℕ) : String := String.mk (natDigits n)

/-- Python `str(n)` for an integer. -/
def intToStr (n : ℤ) : String :=
  if n < 0 then "-" ++ natToStr n.natAbs else natToStr n.natAbs

/-- Exactly `d` decimal digit characters whose value is `fp % 10 ^ d`,
zero-padded on the left: the fraction part of fixed-point rendering. -/
def fracDigitsList : ℕ → ℕ → List Char
  | _, 0 => []
  | fp, d + 1 => fracDigitsList (fp / 10) d ++ [digitChar fp]

/-- Round half to even, the rounding Python applies when formatting a float
with `f"{val:.{d}f}"`. -/
def rhe (x : ℚ) : ℤ :=
  let f := ⌊x⌋
  if x - f < 1 / 2 then f
  else if 1 / 2 < x - f then f + 1
  else if f % 2 = 0 then f else f + 1

/-- Source: `NVPCommand.format_float` (src/NVPcommand.py, identical in
src/command.py), `return f"{val:.{sigfigs}f}"`: fixed-point rendering with
exactly `sigfigs` digits after the decimal point (no point when it is 0),
never scientific notation. -/
def NVPCommand.format_float (val : ℚ) (sigfigs : ℕ) : String :=
  let n : ℤ := rhe (val * (10 : ℚ) ^ sigfigs)
  let m : ℕ := n.natAbs
  (if n < 0 then "-" else "") ++ natToStr (m / 10 ^ sigfigs) ++
    (if sigfigs = 0 then "" else "." ++ String.mk (fracDigitsList (m % 10 ^ sigfigs) sigfigs))

/-- A command argument as the Python code passes it: a float, a string
(enumeration codes), or an int. -/
inductive PyArg where
  | num (q : ℚ)
  | str (t : String)
  | int (n : ℤ)
deriving DecidableEq

/-- Source: the argument rendering inside `NVPCommand.format`:
`str(cls.format_float(arg, sigfigs) if isinstance(arg, float) else arg)`. -/
def pyArgStr (sigfigs : ℕ) : PyArg → String
  | PyArg.num q => NVPCommand.format_float q sigfigs
  | PyArg.str t => t
  | PyArg.int n => intToStr n

/-- Source: `NVPCommand._QUERY_CHAR` (leading underscore dropped for Lean). -/
def NVPCommand.QUERY_CHAR : String := "?"

/-- Source: `NVPCommand._NUM_SIG_FIG_FLOAT`, the default `sigfigs`; Lean has
no keyword defaults here, so callers pass it explicitly. -/
def NVPCommand.NUM_SIG_FIG_FLOAT : ℕ := 7

/-- Source: `NVPCommand.format` (src/NVPcommand.py, identical in
src/command.py): code, then rendered argument, then the query marker iff
`query` is set. -/
def NVPCommand.format (command : String) (query : Bool) (arg : Option PyArg) (sigfigs : ℕ) :
    String :=
  let args_str := match arg with
    | none => ""
    | some a => pyArgStr sigfigs a
  if !query then command ++ args_str else command ++ args_str ++ NVPCommand.QUERY_CHAR

/-- Source: command-code constant `NVPCommand.SET_FREQUENCY_MHZ = "f"`. -/
def NVPCommand.SET_FREQUENCY_MHZ : String := "f"

/-- Source: command-code constant `NVPCommand.SET_RF_POWER_dBm = "W"`. -/
def NVPCommand.SET_RF_POWER_dBm : String := "W"

/-- Source: command-code constant `NVPCommand.QUERY_CAL_SUCCESS = "V"`. -/
def NVPCommand.QUERY_CAL_SUCCESS : String := "V"

/-- Source: command-code constant `NVPCommand.READ_POWER_DETECTOR = "w"`. -/
def NVPCommand.READ_POWER_DETECTOR : String := "w"

/-- Source: command-code constant `NVPCommand.SET_REFERENCE_FREQUENCY = "*"`. -/
def NVPCommand.SET_REFERENCE_FREQUENCY : String := "*"

/-- Source: command-code constant `NVPCommand.PLL_ENABLE = "E"`. -/
def NVPCommand.PLL_ENABLE : String := "E"

/-- Source: command-code constant `NVPCommand.SHOW_MODEL_TYPE = "+"`. -/
def NVPCommand.SHOW_MODEL_TYPE : String := "+"

/-- Observable protocol events, in program order: lock acquire/release of the
coordinator's re-entrant lock, input-buffer reset, a write of command bytes,
and a line read from the channel. -/
inductive Event where
  | acquire
  | release
  | reset
  | write (data : String)
  | read
deriving DecidableEq

/-- State of the serial port: lines buffered for reading (as `readline` would
return them) and the byte sequences written so far. -/
structure SerialPort where
  inBuffer : List String
  written : List String
deriving DecidableEq

/-- State of the controller: the port, the re-entrant lock's hold depth, and
the event log. -/
structure CtrlState where
  port : SerialPort
  lockDepth : ℕ
  log : List Event
deriving DecidableEq

/-- Entering `with self._lock:` on the controller's `threading.RLock`. -/
def CtrlState.acquireLock (s : CtrlState) : CtrlState :=
  { s with lockDepth := s.lockDepth + 1, log := s.log ++ [Event.acquire] }

/-- Leaving `with self._lock:`. -/
def CtrlState.releaseLock (s : CtrlState) : CtrlState :=
  { s with lockDepth := s.lockDepth - 1, log := s.log ++ [Event.release] }

/-- The instrument's reply lines arriving on the input buffer (test-harness
side of the model, not a method of the source). -/
def deviceYields (ls : List String) (s : CtrlState) : CtrlState :=
  { s with port := { s.port with inBuffer := s.port.inBuffer ++ ls } }

/-- Source: `SerialConnection.reset_buffers` (src/NVPserialconnection.py):
`reset_input_buffer` / `reset_output_buffer` discard everything buffered;
the non-faulting path (no `TermiosError`) is modelled. -/
def SerialConnection.reset_buffers (s : CtrlState) : CtrlState :=
  { s with port := { s.port with inBuffer := [] }, log := s.log ++ [Event.reset] }

/-- The underlying `serial.Serial.write`: append exactly the given bytes. -/
def SerialConnection.write (data : String) (s : CtrlState) : CtrlState :=
  { s with
    port := { s.port with written := s.port.written ++ [data] }
    log := s.log ++ [Event.write data] }

/-- Source: `SerialConnection.send`: `self.reset_buffers()` then
`self.connection.write(data)`. -/
def SerialConnection.send (data : String) (s : CtrlState) : CtrlState :=
  SerialConnection.write data (SerialConnection.reset_buffers s)

/-- Source: `SerialConnection.send_command`: encode (identity on this ASCII
text) and `send`; `DEBUG_MODE` is `False`, so the function returns `None`. -/
def SerialConnection.send_command (command : String) (s : CtrlState) : CtrlState :=
  SerialConnection.send command s

/-- Source: `SerialConnection.read_response` at the default `wait_time = 0`
(the only way the controller calls it): one `readline` — the next buffered
line, or `""` when the buffer is empty (timeout) — then `strip()`. -/
def SerialConnection.read_response (s : CtrlState) : String × CtrlState :=
  match s.port.inBuffer with
  | [] => ("", { s with log := s.log ++ [Event.read] })
  | l :: rest =>
      (pyStrip l,
        { s with
          port := { s.port with inBuffer := rest }
          log := s.log ++ [Event.read] })

/-- Source: `SynthNVProController.send_command`: `with self._lock:` around
`self.connection.send_command(command)`; the method body has no `return`,
so it returns `None`. -/
def SynthNVProController.send_command (command : String) (s : CtrlState) :
    Option String × CtrlState :=
  let s1 := CtrlState.acquireLock s
  let s2 := SerialConnection.send_command command s1
  let s3 := CtrlState.releaseLock s2
  (none, s3)

/-- Source: `SynthNVProController.get_rf_frequency`: send `f?` (under the
lock), then `float(self.connection.read_response())` (outside the lock). -/
def SynthNVProController.get_rf_frequency (reply : List String) (s : CtrlState) :
    Except String ℚ × CtrlState :=
  let command := NVPCommand.format NVPCommand.SET_FREQUENCY_MHZ true none
    NVPCommand.NUM_SIG_FIG_FLOAT
  let s1 := (SynthNVProController.send_command command s).2
  let s2 := deviceYields reply s1
  let (r, s3) := SerialConnection.read_response s2
  (pyFloatE r, s3)

/-- Source: `SynthNVProController.set_rf_frequency`: format `f` with the
argument at the default 7 digits and send; the docstring documents the
12.5–6400 MHz domain but the method performs no validation. -/
def SynthNVProController.set_rf_frequency (frequency_mhz : ℚ) (s : CtrlState) : CtrlState :=
  (SynthNVProController.send_command
    (NVPCommand.format NVPCommand.SET_FREQUENCY_MHZ false (some (PyArg.num frequency_mhz))
      NVPCommand.NUM_SIG_FIG_FLOAT) s).2

/-- Source: `SynthNVProController.set_reference_frequency`: raise
`ValueError` unless `10.0 <= frequency <= 100.0`, else send `*` with the
argument; on the raising path no state is touched. -/
def SynthNVProController.set_reference_frequency (frequency : ℚ) (s : CtrlState) :
    Except String Unit × CtrlState :=
  if 10 ≤ frequency ∧ frequency ≤ 100 then
    (Except.ok (), (SynthNVProController.send_command
      (NVPCommand.format NVPCommand.SET_REFERENCE_FREQUENCY false (some (PyArg.num frequency))
        NVPCommand.NUM_SIG_FIG_FLOAT) s).2)
  else
    (Except.error "Reference frequency must be between 10.0MHz and 100.0MHz.", s)

/-- Source: `SynthNVProController.get_calibration_succesful` (spelling as in
the source): send `V` (no query marker in the source), then
`bool(self.connection.read_response())`. -/
def SynthNVProController.get_calibration_succesful (reply : List String) (s : CtrlState) :
    Bool × CtrlState :=
  let command := NVPCommand.format NVPCommand.QUERY_CAL_SUCCESS false none
    NVPCommand.NUM_SIG_FIG_FLOAT
  let s1 := (SynthNVProController.send_command command s).2
  let s2 := deviceYields reply s1
  let (r, s3) := SerialConnection.read_response s2
  (pyBoolStr r, s3)

/-- Source: `SynthNVProController.get_pll_enable`: send `E?`, then
`return bool(response)` where `response` is the `None` returned by
`self.send_command(command)` — the channel is never read. -/
def SynthNVProController.get_pll_enable (s : CtrlState) : Bool × CtrlState :=
  let command := NVPCommand.format NVPCommand.PLL_ENABLE true none
    NVPCommand.NUM_SIG_FIG_FLOAT
  let (response, s1) := SynthNVProController.send_command command s
  (pyBoolOptStr response, s1)

/-- Source: `SynthNVProController.show_model_type`: send `+`, return
`self.connection.read_response()` verbatim. -/
def SynthNVProController.show_model_type (reply : List String) (s : CtrlState) :
    String × CtrlState :=
  let s1 := (SynthNVProController.send_command
    (NVPCommand.format NVPCommand.SHOW_MODEL_TYPE false none
      NVPCommand.NUM_SIG_FIG_FLOAT) s).2
  let s2 := deviceYields reply s1
  SerialConnection.read_response s2

/-- Source: the loop of `SynthNVProController.read_power_detector`, acting on
the buffered lines: `while (response := self.connection.read_response()) !=
"EOM.": responses.append(float(response))`.  An empty buffer makes
`read_response` return `""` (the timeout outcome) and `float("")` then
raises `ValueError`; a non-float line raises likewise.  Returns the result
together with the lines left unread. -/
def rpdLoop : List String → Except String (List ℚ) × List String
  | [] => (Except.error "could not convert string to float: ", [])
  | l :: rest =>
      let r := pyStrip l
      if r = "EOM." then (Except.ok [], rest)
      else
        match pyFloat? r with
        | none => (Except.error ("could not convert string to float: " ++ r), rest)
        | some v =>
            match rpdLoop rest with
            | (Except.ok vs, rem) => (Except.ok (v :: vs), rem)
            | (Except.error e, rem) => (Except.error e, rem)

/-- Source: `SynthNVProController.read_power_detector`: send `w` with the
optional count, then accumulate `float` conversions of reply lines until the
sentinel line `EOM.`. -/
def SynthNVProController.read_power_detector (x : Option ℤ) (reply : List String)
    (s : CtrlState) : Except String (List ℚ) × CtrlState :=
  let command := NVPCommand.format NVPCommand.READ_POWER_DETECTOR false
    (Option.map PyArg.int x) NVPCommand.NUM_SIG_FIG_FLOAT
  let s1 := (SynthNVProController.send_command command s).2
  let s2 := deviceYields reply s1
  let (res, rem) := rpdLoop s2.port.inBuffer
  (res, { s2 with port := { s2.port with inBuffer := rem } })

/-- All the `float` conversions of a list of reply lines (after stripping),
or `none` if any fails: the vocabulary for stating the multi-reply claim. -/
def parseLines : List String → Option (List ℚ)
  | [] => some []
  | l :: ls =>
      match pyFloat? (pyStrip l), parseLines ls with
      | some v, some vs => some (v :: vs)
      | _, _ => none

/-- Checks that every `read` event in the log happens while the re-entrant
lock is held (hold depth positive), starting from the given depth. -/
def readsUnderLockAux : ℕ → List Event → Bool
  | _, [] => true
  | depth, Event.acquire :: t => readsUnderLockAux (depth + 1) t
  | depth, Event.release :: t => readsUnderLockAux (depth - 1) t
  | depth, Event.read :: t => decide (0 < depth) && readsUnderLockAux depth t
  | depth, _ :: t => readsUnderLockAux depth t

/-- A fresh controller state: empty buffers, lock free, empty log. -/
def sampleState : CtrlState := ⟨⟨[], []⟩, 0, []⟩

/-! ## Basic evaluation lemmas -/

/-- Stripping the empty string gives the empty string. -/
theorem pyStrip_empty : pyStrip "" = "" := rfl

/-- `send_command` on the controller leaves the port with an empty input
buffer (stale lines discarded) and exactly the command appended to the
write history. -/
theorem send_command_port (c : String) (s : CtrlState) :
    ((SynthNVProController.send_command c s).2).port = ⟨[], s.port.written ++ [c]⟩ := rfl

/-- `send_command` on the controller appends acquire, reset, write, release
to the log, in that order. -/
theorem send_command_log (c : String) (s : CtrlState) :
    ((SynthNVProController.send_command c s).2).log =
      s.log ++ [Event.acquire, Event.reset, Event.write c, Event.release] := by
  simp [SynthNVProController.send_command, SerialConnection.send_command,
    SerialConnection.send, SerialConnection.write, SerialConnection.reset_buffers,
    CtrlState.acquireLock, CtrlState.releaseLock, List.append_assoc]

/-- Rounding an integer-valued rational is the identity. -/
theorem rhe_intCast (n : ℤ) : rhe ((n : ℤ) : ℚ) = n := by
  simp [rhe, Int.floor_intCast]

/-- Evaluation form of `format_float` when the scaled value is a known
integer. -/
theorem format_float_eval (q : ℚ) (d : ℕ) (n : ℤ) (h : q * (10 : ℚ) ^ d = (n : ℚ)) :
    NVPCommand.format_float q d =
      (if n < 0 then "-" else "") ++ natToStr (n.natAbs / 10 ^ d) ++
        (if d = 0 then "" else "." ++ String.mk (fracDigitsList (n.natAbs % 10 ^ d) d)) := by
  simp only [NVPCommand.format_float, h, rhe_intCast]

/-! ## Claims C7–C10 -/

/-- C7: every transaction discards stale buffered bytes before the command
bytes are written: `send` resets the buffers and then writes exactly the
given byte sequence, with no implicit terminator; a single-reply read that
follows (after the device's own reply `ls` arrives) returns the first line
of that reply, never a stale line from before the send. -/
theorem C7_send_resets_before_write (s : CtrlState) (data : String) (ls : List String) :
    (deviceYields ls (SerialConnection.send data s)).port.inBuffer = ls ∧
    (deviceYields ls (SerialConnection.send data s)).port.written =
      s.port.written ++ [data] ∧
    (SerialConnection.read_response (deviceYields ls (SerialConnection.send data s))).1 =
      pyStrip (ls.headD "") := by
  cases ls <;>
    simp [SerialConnection.send, SerialConnection.write, SerialConnection.reset_buffers,
      deviceYields, SerialConnection.read_response, pyStrip_empty]

/-- C8: encoding with the query flag set produces exactly the non-query
encoding of the same code and argument followed by one query marker `?`,
for every code and argument (including a present argument). -/
theorem C8_query_flag_appends_marker (c : String) (arg : Option PyArg) (d : ℕ) :
    NVPCommand.format c true arg d = NVPCommand.format c false arg d ++ NVPCommand.QUERY_CHAR := rfl

/-- C9: `get_pll_enable` returns `False` for every controller state: it
applies `bool()` to the `None` returned by `send_command`, and its event log
shows the channel is never read. -/
theorem C9_get_pll_enable_always_false (s : CtrlState) :
    (SynthNVProController.get_pll_enable s).1 = false ∧
    (SynthNVProController.get_pll_enable s).2.log =
      s.log ++ [Event.acquire, Event.reset,
        Event.write (NVPCommand.format NVPCommand.PLL_ENABLE true none
          NVPCommand.NUM_SIG_FIG_FLOAT), Event.release] := by
  exact ⟨rfl, send_command_log _ s⟩

/-- Python truthiness of a string is exactly non-emptiness. -/
theorem pyBoolStr_eq_true (t : String) : (pyBoolStr t = true) ↔ t ≠ "" := by
  rw [pyBoolStr, Bool.not_eq_true', ← Bool.not_eq_true]
  exact not_congr (String.isEmpty_iff t)

/-- C10: `get_calibration_succesful` applies `bool()` to the reply string,
so it returns `True` exactly when the (stripped) reply line is non-empty —
in particular a reply of `"0"`, the device's failure report, yields `True`. -/
theorem C10_get_calibration_bool_of_reply (reply : List String) (s : CtrlState) :
    ((SynthNVProController.get_calibration_succesful reply s).1 = true ↔
      pyStrip (reply.headD "") ≠ "") ∧
    (SynthNVProController.get_calibration_succesful ["0\n"] s).1 = true := by
  constructor
  · cases reply <;>
      simp [SynthNVProController.get_calibration_succesful, SynthNVProController.send_command,
        SerialConnection.send_command, SerialConnection.send, SerialConnection.write,
        SerialConnection.reset_buffers, CtrlState.acquireLock, CtrlState.releaseLock,
        deviceYields, SerialConnection.read_response, pyBoolStr_eq_true, pyStrip_empty]
  · simp [SynthNVProController.get_calibration_succesful, SynthNVProController.send_command,
      SerialConnection.send_command, SerialConnection.send, SerialConnection.write,
      SerialConnection.reset_buffers, CtrlState.acquireLock, CtrlState.releaseLock,
      deviceYields, SerialConnection.read_response]
    decide

/-! ## Claim C1 (corrected): the lock covers only the write, not the reads -/

/-- C1 counterexample: in the `get_rf_frequency` transaction the reply read
happens at lock depth 0 — after the lock has been released — so the claim
that every read of a transaction occurs while the lock is held is false. -/
theorem C1_counterexample_read_after_release :
    readsUnderLockAux 0
      ((SynthNVProController.get_rf_frequency ["2450.0000000\n"] sampleState).2.log) =
      false := by decide

/-- C1 (amended): the coordinator's lock is held only around the command
write — `get_rf_frequency` acquires the lock, resets buffers, writes `f?`
and releases the lock before the reply line is read, ending at the caller's
lock depth; the write is serialized but the full round trip is not. -/
theorem C1_lock_released_before_read (reply : List String) (s : CtrlState) :
    (SynthNVProController.get_rf_frequency reply s).2.log =
      s.log ++ [Event.acquire, Event.reset,
        Event.write (NVPCommand.format NVPCommand.SET_FREQUENCY_MHZ true none
          NVPCommand.NUM_SIG_FIG_FLOAT), Event.release, Event.read] ∧
    (SynthNVProController.get_rf_frequency reply s).2.lockDepth = s.lockDepth := by
  cases reply <;>
    simp [SynthNVProController.get_rf_frequency, SynthNVProController.send_command,
      SerialConnection.send_command, SerialConnection.send, SerialConnection.write,
      SerialConnection.reset_buffers, CtrlState.acquireLock, CtrlState.releaseLock,
      deviceYields, SerialConnection.read_response, List.append_assoc]

/-! ## Claim C2 (corrected): no error classification exists in the code -/

/-- C2 counterexample: a reply line containing the error marker is returned
to the caller as data by the `show_model_type` transaction — no `DeviceError`
is raised and no framing is stripped, refuting the claim that no transaction
ever returns such a line. -/
theorem C2_counterexample_error_line_returned :
    (SynthNVProController.show_model_type ["$error/bad value#%\n"] sampleState).1 =
      "$error/bad value#%" := by decide

/-- C2 (amended): the code performs no error-marker classification.  A
raw-string transaction such as `show_model_type` returns any reply line —
error-marked or not — as data, stripped of surrounding whitespace only; and
a numeric getter such as `get_rf_frequency` fails on the error line
`$error/bad value#%` with the float-conversion `ValueError`, not with a
device error carrying the unframed message. -/
theorem C2_no_error_classification (s : CtrlState) (l : String) :
    (SynthNVProController.show_model_type [l] s).1 = pyStrip l ∧
    (SynthNVProController.get_rf_frequency ["$error/bad value#%\n"] s).1 =
      Except.error "could not convert string to float: $error/bad value#%" := by
  constructor
  · simp [SynthNVProController.show_model_type, SynthNVProController.send_command,
      SerialConnection.send_command, SerialConnection.send, SerialConnection.write,
      SerialConnection.reset_buffers, CtrlState.acquireLock, CtrlState.releaseLock,
      deviceYields, SerialConnection.read_response]
  · simp [SynthNVProController.get_rf_frequency, SynthNVProController.send_command,
      SerialConnection.send_command, SerialConnection.send, SerialConnection.write,
      SerialConnection.reset_buffers, CtrlState.acquireLock, CtrlState.releaseLock,
      deviceYields, SerialConnection.read_response]
    rfl

/-! ## Claim C3 (corrected): budget exhaustion raises instead of returning -/

/-- C3 counterexample: with one data line buffered and no sentinel, the next
read times out returning `""`, and `float("")` raises `ValueError` — the
multi-reply read neither terminates normally nor returns the accumulated
data, refuting the claim that it returns a partial result without raising. -/
theorem C3_counterexample_timeout_raises :
    (SynthNVProController.read_power_detector none ["-10.176\n"] sampleState).1 =
      Except.error "could not convert string to float: " := rfl

/-- Helper for C3: if no buffered line strips to the sentinel, the
power-detector loop always ends in a raised `ValueError` (either a line
fails float conversion, or the buffer empties and `float("")` raises). -/
theorem rpdLoop_no_sentinel (bs : List String) (h : ∀ l ∈ bs, pyStrip l ≠ "EOM.") :
    ∃ e, (rpdLoop bs).1 = Except.error e := by
  induction bs with
  | nil => exact ⟨_, rfl⟩
  | cons l rest ih =>
      have hl : pyStrip l ≠ "EOM." := h l (by simp)
      have hrest : ∀ l ∈ rest, pyStrip l ≠ "EOM." := fun x hx => h x (by simp [hx])
      obtain ⟨e, he⟩ := ih hrest
      rw [rpdLoop, if_neg hl]
      cases hp : pyFloat? (pyStrip l) with
      | none => exact ⟨_, rfl⟩
      | some v =>
          rcases hq : rpdLoop rest with ⟨res, rem⟩
          rw [hq] at he
          simp only at he
          rw [he]
          exact ⟨e, rfl⟩

/-- C3 (amended): if the sentinel line never arrives — in particular when
the wait budget elapses and a read returns an empty line — the multi-reply
read `read_power_detector` raises `ValueError` (from `float("")` or from a
non-float line) instead of returning the accumulated data; no partial or
empty result is ever returned, and non-float lines are not kept as text. -/
theorem C3_no_sentinel_raises (x : Option ℤ) (s : CtrlState) (bs : List String)
    (h : ∀ l ∈ bs, pyStrip l ≠ "EOM.") :
    ∃ e, (SynthNVProController.read_power_detector x bs s).1 = Except.error e := by
  obtain ⟨e, he⟩ := rpdLoop_no_sentinel bs h
  refine ⟨e, ?_⟩
  rw [SynthNVProController.read_power_detector]
  simp only [send_command_port, deviceYields]
  rcases hq : rpdLoop bs with ⟨res, rem⟩
  rw [hq] at he
  simp only at he
  simp [← he, hq]

/-- C3 witness: the amended theorem applied to a buffer holding one data
line and no sentinel. -/
theorem C3_no_sentinel_raises_witness :
    (∀ l ∈ ["-10.200\n"], pyStrip l ≠ "EOM.") ∧
    ∃ e, (SynthNVProController.read_power_detector none ["-10.200\n"] sampleState).1 =
      Except.error e :=
  ⟨by decide, C3_no_sentinel_raises none sampleState ["-10.200\n"] (by decide)⟩

/-! ## Claim C4 (corrected): only some setters validate their domain -/

/-- C4 counterexample: `set_rf_frequency` has a documented domain of
12.5–6400 MHz yet performs no validation — called with 5 MHz it raises
nothing (its type has no error outcome) and the out-of-domain command
`f5.0000000` goes straight to the wire, refuting the claim that every typed
setter with a documented numeric domain validates before writing. -/
theorem C4_counterexample_set_rf_frequency_unvalidated :
    (SynthNVProController.set_rf_frequency 5 sampleState).port.written = ["f5.0000000"] := by
  have h : NVPCommand.format_float 5 NVPCommand.NUM_SIG_FIG_FLOAT = "5.0000000" := by
    rw [NVPCommand.NUM_SIG_FIG_FLOAT, format_float_eval 5 7 50000000 (by norm_num)]
    decide
  simp [SynthNVProController.set_rf_frequency, send_command_port, NVPCommand.format,
    pyArgStr, h, sampleState]
  rfl

/-- C4 (amended): `set_reference_frequency` does validate: outside the
10.0–100.0 MHz domain it raises `ValueError` before any state change (so no
bytes are written — the 5.0 MHz scenario of the spec holds), and inside the
domain the argument is transmitted unchanged inside the `*` command; but the
claim's universal statement fails because `set_rf_frequency`, whose
documented domain is 12.5–6400 MHz, transmits any argument unvalidated. -/
theorem C4_setter_validation :
    (∀ (f : ℚ) (s : CtrlState), ¬(10 ≤ f ∧ f ≤ 100) →
      SynthNVProController.set_reference_frequency f s =
        (Except.error "Reference frequency must be between 10.0MHz and 100.0MHz.", s)) ∧
    (∀ (f : ℚ) (s : CtrlState), (10 ≤ f ∧ f ≤ 100) →
      SynthNVProController.set_reference_frequency f s =
        (Except.ok (), (SynthNVProController.send_command
          (NVPCommand.format NVPCommand.SET_REFERENCE_FREQUENCY false (some (PyArg.num f))
            NVPCommand.NUM_SIG_FIG_FLOAT) s).2)) ∧
    (∀ (f : ℚ) (s : CtrlState),
      (SynthNVProController.set_rf_frequency f s).port.written =
        s.port.written ++ [NVPCommand.format NVPCommand.SET_FREQUENCY_MHZ false
          (some (PyArg.num f)) NVPCommand.NUM_SIG_FIG_FLOAT]) := by
  refine ⟨fun f s h => ?_, fun f s h => ?_, fun f s => ?_⟩
  · rw [SynthNVProController.set_reference_frequency, if_neg h]
  · rw [SynthNVProController.set_reference_frequency, if_pos h]
  · simp [SynthNVProController.set_rf_frequency, send_command_port]

/-- C4 witness: the amended theorem at the spec's scenario (5 MHz reference
frequency is rejected with the state untouched) and at an in-domain value. -/
theorem C4_setter_validation_witness :
    (¬(10 ≤ (5 : ℚ) ∧ (5 : ℚ) ≤ 100) ∧
      SynthNVProController.set_reference_frequency 5 sampleState =
        (Except.error "Reference frequency must be between 10.0MHz and 100.0MHz.",
          sampleState)) ∧
    ((10 ≤ (50 : ℚ) ∧ (50 : ℚ) ≤ 100) ∧
      SynthNVProController.set_reference_frequency 50 sampleState =
        (Except.ok (), (SynthNVProController.send_command
          (NVPCommand.format NVPCommand.SET_REFERENCE_FREQUENCY false (some (PyArg.num 50))
            NVPCommand.NUM_SIG_FIG_FLOAT) sampleState).2)) :=
  ⟨⟨by norm_num, C4_setter_validation.1 5 sampleState (by norm_num)⟩,
    ⟨by norm_num, C4_setter_validation.2.1 50 sampleState (by norm_num)⟩⟩

/-! ## Claim C5: multi-reply reads return exactly the data lines -/

/-- The sentinel line itself never parses as a float. -/
theorem pyFloat?_EOM : pyFloat? "EOM." = none := by decide

/-- Helper for C5: when the buffer is a run of float-parsable lines followed
by the sentinel, the power-detector loop returns exactly their values, in
order, consuming the sentinel and leaving the rest of the buffer. -/
theorem rpdLoop_sentinel (ds : List String) (e : String) (rest : List String) (vs : List ℚ)
    (he : pyStrip e = "EOM.") (hp : parseLines ds = some vs) :
    rpdLoop (ds ++ e :: rest) = (Except.ok vs, rest) := by
  induction ds generalizing vs with
  | nil =>
      simp only [parseLines, Option.some.injEq] at hp
      subst hp
      simp only [List.nil_append, rpdLoop, he, if_pos]
  | cons l ds ih =>
      rw [parseLines] at hp
      cases hv : pyFloat? (pyStrip l) with
      | none => rw [hv] at hp; exact absurd hp (by simp)
      | some v =>
          rw [hv] at hp
          cases hvs : parseLines ds with
          | none => rw [hvs] at hp; exact absurd hp (by simp)
          | some vs' =>
              rw [hvs] at hp
              simp only [Option.some.injEq] at hp
              have hne : pyStrip l ≠ "EOM." := by
                intro hc
                rw [hc, pyFloat?_EOM] at hv
                exact Option.noConfusion hv
              rw [List.cons_append, rpdLoop, if_neg hne, hv, ih vs' hvs, ← hp]

/-- C5: for every multi-reply exchange whose incoming lines are `N` data
lines followed by the sentinel line, `read_power_detector` returns exactly
those `N` lines' float values in order, and the sentinel line is never part
of the returned sequence. -/
theorem C5_multi_reply_excludes_sentinel (x : Option ℤ) (s : CtrlState) (ds : List String)
    (e : String) (vs : List ℚ) (he : pyStrip e = "EOM.") (hp : parseLines ds = some vs) :
    (SynthNVProController.read_power_detector x (ds ++ [e]) s).1 = Except.ok vs := by
  rw [SynthNVProController.read_power_detector]
  simp only [send_command_port, deviceYields, List.nil_append]
  rw [rpdLoop_sentinel ds e [] vs he hp]

/-- C5 witness: the spec's power-detector scenario — three measurement lines
then the sentinel yield the three measurements, sentinel excluded. -/
theorem C5_multi_reply_excludes_sentinel_witness :
    pyStrip "EOM.\n" = "EOM." ∧
    parseLines ["-10.176\n", "-10.200\n", "-10.150\n"] =
      some [-(1272 / 125 : ℚ), -(51 / 5 : ℚ), -(203 / 20 : ℚ)] ∧
    (SynthNVProController.read_power_detector none
        (["-10.176\n", "-10.200\n", "-10.150\n"] ++ ["EOM.\n"]) sampleState).1 =
      Except.ok [-(1272 / 125 : ℚ), -(51 / 5 : ℚ), -(203 / 20 : ℚ)] := by
  have h1 : pyStrip "EOM.\n" = "EOM." := by decide
  have e1 : pyFloat? (pyStrip "-10.176\n") =
      some (-(((10 : ℕ) : ℚ) + ((176 : ℕ) : ℚ) / (10 : ℚ) ^ 3)) := rfl
  have e2 : pyFloat? (pyStrip "-10.200\n") =
      some (-(((10 : ℕ) : ℚ) + ((200 : ℕ) : ℚ) / (10 : ℚ) ^ 3)) := rfl
  have e3 : pyFloat? (pyStrip "-10.150\n") =
      some (-(((10 : ℕ) : ℚ) + ((150 : ℕ) : ℚ) / (10 : ℚ) ^ 3)) := rfl
  have h2 : parseLines ["-10.176\n", "-10.200\n", "-10.150\n"] =
      some [-(1272 / 125 : ℚ), -(51 / 5 : ℚ), -(203 / 20 : ℚ)] := by
    simp only [parseLines, e1, e2, e3]
    norm_num
  exact ⟨h1, h2, C5_multi_reply_excludes_sentinel none sampleState _ "EOM.\n" _ h1 h2⟩

/-! ## Claim C6 support: correctness of the digit machinery -/

/-- Facts about ASCII digit characters, checked by evaluation. -/
theorem digit_char_spec : ∀ k : ℕ, k < 10 →
    ((Char.ofNat (48 + k)).isDigit = true ∧ (Char.ofNat (48 + k)).toNat - 48 = k ∧
      isPyWhite (Char.ofNat (48 + k)) = false ∧ Char.ofNat (48 + k) ≠ '.' ∧
      Char.ofNat (48 + k) ≠ '-' ∧ Char.ofNat (48 + k) ≠ '+' ∧
      Char.ofNat (48 + k) ≠ 'e' ∧ Char.ofNat (48 + k) ≠ 'E') := by decide

/-- The same facts for `digitChar k`, any `k`. -/
theorem digitChar_spec (k : ℕ) :
    (digitChar k).isDigit = true ∧ (digitChar k).toNat - 48 = k % 10 ∧
      isPyWhite (digitChar k) = false ∧ digitChar k ≠ '.' ∧
      digitChar k ≠ '-' ∧ digitChar k ≠ '+' ∧
      digitChar k ≠ 'e' ∧ digitChar k ≠ 'E' := by
  rw [digitChar]
  exact digit_char_spec (k % 10) (Nat.mod_lt k (by norm_num))

/-- `digitsVal` over an append threads the accumulator. -/
theorem digitsVal_append (xs : List Char) : ∀ (ys : List Char) (a : ℕ),
    digitsVal (xs ++ ys) a = digitsVal ys (digitsVal xs a) := by
  induction xs with
  | nil => intro ys a; rfl
  | cons c cs ih => intro ys a; rw [List.cons_append, digitsVal, ih, digitsVal]

/-- The accumulator of `natToDigitsAux` is a suffix. -/
theorem natToDigitsAux_acc (fuel : ℕ) : ∀ (n : ℕ) (acc : List Char),
    natToDigitsAux fuel n acc = natToDigitsAux fuel n [] ++ acc := by
  induction fuel with
  | zero => intro n acc; rfl
  | succ fuel ih =>
      intro n acc
      rw [natToDigitsAux, natToDigitsAux]
      by_cases h : n < 10
      · rw [if_pos h, if_pos h]; rfl
      · rw [if_neg h, if_neg h, ih (n / 10) (digitChar n :: acc), ih (n / 10) [digitChar n],
          List.append_assoc]
        rfl

/-- Every character `natToDigitsAux` produces is a digit character. -/
theorem natToDigitsAux_mem (fuel : ℕ) : ∀ (n : ℕ) (c : Char),
    c ∈ natToDigitsAux fuel n [] → ∃ k, c = digitChar k := by
  induction fuel with
  | zero => intro n c hc; exact absurd hc (by simp [natToDigitsAux])
  | succ fuel ih =>
      intro n c hc
      rw [natToDigitsAux] at hc
      by_cases h : n < 10
      · rw [if_pos h] at hc
        simp only [List.mem_singleton] at hc
        exact ⟨n, hc⟩
      · rw [if_neg h, natToDigitsAux_acc] at hc
        rcases List.mem_append.1 hc with h1 | h2
        · exact ih (n / 10) c h1
        · simp only [List.mem_singleton] at h2
          exact ⟨n, h2⟩

/-- `natToDigitsAux` computes the decimal digits: reading them back gives
`n`, provided the fuel suffices. -/
theorem natToDigitsAux_val (fuel : ℕ) : ∀ n : ℕ, n ≤ fuel →
    digitsVal (natToDigitsAux fuel n []) 0 = n := by
  induction fuel with
  | zero =>
      intro n h
      have : n = 0 := by omega
      subst this
      rfl
  | succ fuel ih =>
      intro n h
      rw [natToDigitsAux]
      by_cases h10 : n < 10
      · rw [if_pos h10]
        have hd := (digitChar_spec n).2.1
        simp only [digitsVal, hd]
        omega
      · rw [if_neg h10, natToDigitsAux_acc, digitsVal_append, ih (n / 10) (by omega)]
        have hd := (digitChar_spec n).2.1
        simp only [digitsVal, hd]
        omega

/-- The digit string of `n` is never empty. -/
theorem natDigits_ne_nil (n : ℕ) : natDigits n ≠ [] := by
  rw [natDigits, natToDigitsAux]
  by_cases h : n < 10
  · rw [if_pos h]; simp
  · rw [if_neg h, natToDigitsAux_acc]; simp

/-- Reading back the digit string of `n` gives `n`. -/
theorem natDigits_val (n : ℕ) : digitsVal (natDigits n) 0 = n :=
  natToDigitsAux_val (n + 1) n (by omega)

/-- Every character of the digit string of `n` is a digit character. -/
theorem natDigits_mem (n : ℕ) (c : Char) (hc : c ∈ natDigits n) : ∃ k, c = digitChar k :=
  natToDigitsAux_mem (n + 1) n c hc

/-- `fracDigitsList` always produces exactly `d` characters. -/
theorem fracDigitsList_length (d : ℕ) : ∀ fp : ℕ, (fracDigitsList fp d).length = d := by
  induction d with
  | zero => intro fp; rfl
  | succ d ih => intro fp; rw [fracDigitsList]; simp [ih]

/-- Every character `fracDigitsList` produces is a digit character. -/
theorem fracDigitsList_mem (d : ℕ) : ∀ (fp : ℕ) (c : Char),
    c ∈ fracDigitsList fp d → ∃ k, c = digitChar k := by
  induction d with
  | zero => intro fp c hc; exact absurd hc (by simp [fracDigitsList])
  | succ d ih =>
      intro fp c hc
      rw [fracDigitsList] at hc
      rcases List.mem_append.1 hc with h1 | h2
      · exact ih (fp / 10) c h1
      · simp only [List.mem_singleton] at h2
        exact ⟨fp, h2⟩

/-- Splitting the last decimal digit off a `mod`-power. -/
theorem mod_ten_pow_succ (fp d : ℕ) :
    fp % 10 ^ (d + 1) = fp / 10 % 10 ^ d * 10 + fp % 10 := by
  have hq : fp / 10 % 10 ^ d < 10 ^ d := Nat.mod_lt _ (pow_pos (by norm_num) d)
  have hr : fp % 10 < 10 := Nat.mod_lt _ (by norm_num)
  have hsplit : fp = 10 ^ d * 10 * (fp / 10 / 10 ^ d) + (fp / 10 % 10 ^ d * 10 + fp % 10) := by
    conv_lhs => rw [← Nat.div_add_mod fp 10, ← Nat.div_add_mod (fp / 10) (10 ^ d)]
    ring
  rw [pow_succ]
  conv_lhs => rw [hsplit]
  rw [Nat.add_comm (10 ^ d * 10 * (fp / 10 / 10 ^ d)), Nat.add_mul_mod_self_left]
  exact Nat.mod_eq_of_lt (by omega)

/-- Reading back `fracDigitsList fp d` gives `fp % 10 ^ d`. -/
theorem fracDigitsList_val (d : ℕ) : ∀ fp : ℕ,
    digitsVal (fracDigitsList fp d) 0 = fp % 10 ^ d := by
  induction d with
  | zero => intro fp; simp [fracDigitsList, digitsVal, Nat.mod_one]
  | succ d ih =>
      intro fp
      rw [fracDigitsList, digitsVal_append, ih (fp / 10)]
      have hd := (digitChar_spec fp).2.1
      simp only [digitsVal, hd]
      rw [mod_ten_pow_succ]

/-- `takeWhile` over a satisfying run followed by a failing element. -/
theorem takeWhile_append_all (p : Char → Bool) (xs : List Char) : ∀ (y : Char) (ys : List Char),
    (∀ c ∈ xs, p c = true) → p y = false → List.takeWhile p (xs ++ y :: ys) = xs := by
  induction xs with
  | nil => intro y ys _ hy; simp [List.takeWhile_cons, hy]
  | cons c cs ih =>
      intro y ys hall hy
      have hc : p c = true := hall c (by simp)
      rw [List.cons_append, List.takeWhile_cons, if_pos hc,
        ih y ys (fun d hd => hall d (by simp [hd])) hy]

/-- `dropWhile` over a satisfying run followed by a failing element. -/
theorem dropWhile_append_all (p : Char → Bool) (xs : List Char) : ∀ (y : Char) (ys : List Char),
    (∀ c ∈ xs, p c = true) → p y = false → List.dropWhile p (xs ++ y :: ys) = y :: ys := by
  induction xs with
  | nil => intro y ys _ hy; simp [List.dropWhile_cons, hy]
  | cons c cs ih =>
      intro y ys hall hy
      have hc : p c = true := hall c (by simp)
      rw [List.cons_append, List.dropWhile_cons, if_pos hc,
        ih y ys (fun d hd => hall d (by simp [hd])) hy]

/-- `takeWhile` of an all-satisfying list is the list. -/
theorem takeWhile_all (p : Char → Bool) (xs : List Char) (h : ∀ c ∈ xs, p c = true) :
    List.takeWhile p xs = xs := by
  induction xs with
  | nil => rfl
  | cons c cs ih =>
      have hc : p c = true := h c (by simp)
      rw [List.takeWhile_cons, if_pos hc, ih (fun d hd => h d (by simp [hd]))]

/-- `dropWhile` of an all-satisfying list is empty. -/
theorem dropWhile_all (p : Char → Bool) (xs : List Char) (h : ∀ c ∈ xs, p c = true) :
    List.dropWhile p xs = [] := by
  induction xs with
  | nil => rfl
  | cons c cs ih =>
      have hc : p c = true := h c (by simp)
      rw [List.dropWhile_cons, if_pos hc, ih (fun d hd => h d (by simp [hd]))]

/-- `dropWhile` of an all-failing list is the list. -/
theorem dropWhile_none (p : Char → Bool) (xs : List Char) (h : ∀ c ∈ xs, p c = false) :
    List.dropWhile p xs = xs := by
  cases xs with
  | nil => rfl
  | cons c cs => rw [List.dropWhile_cons, if_neg (by simp [h c (by simp)])]

/-- Stripping a string with no whitespace anywhere is the identity. -/
theorem pyStripList_eq_self (cs : List Char) (h : ∀ c ∈ cs, isPyWhite c = false) :
    pyStripList cs = cs := by
  have h2 : ∀ c ∈ cs.reverse, isPyWhite c = false := fun c hc => h c (List.mem_reverse.1 hc)
  rw [pyStripList, dropWhile_none isPyWhite cs h, dropWhile_none isPyWhite cs.reverse h2,
    List.reverse_reverse]

/-- Parsing a pure digit run yields its value. -/
theorem parseUnsignedFloat_digits (ip : List Char) (hip : ∀ c ∈ ip, c.isDigit = true)
    (hne : ip ≠ []) : parseUnsignedFloat ip = some ((digitsVal ip 0 : ℕ) : ℚ) := by
  have hemp : ip.isEmpty = false := by
    cases ip with
    | nil => exact absurd rfl hne
    | cons c cs => rfl
  rw [parseUnsignedFloat]
  simp only [takeWhile_all Char.isDigit ip hip, dropWhile_all Char.isDigit ip hip, hemp]
  rfl

/-- Parsing a digit run, a point and a digit run yields the mixed value. -/
theorem parseUnsignedFloat_point (ip frac : List Char) (hip : ∀ c ∈ ip, c.isDigit = true)
    (hfrac : ∀ c ∈ frac, c.isDigit = true) (hne : ip ≠ []) :
    parseUnsignedFloat (ip ++ '.' :: frac) =
      some ((digitsVal ip 0 : ℕ) + ((digitsVal frac 0 : ℕ) : ℚ) / (10 : ℚ) ^ frac.length) := by
  have hdot : Char.isDigit '.' = false := by decide
  have hemp : ip.isEmpty = false := by
    cases ip with
    | nil => exact absurd rfl hne
    | cons c cs => rfl
  have hall : frac.all Char.isDigit = true := List.all_eq_true.2 hfrac
  rw [parseUnsignedFloat]
  simp only [takeWhile_append_all Char.isDigit ip '.' frac hip hdot,
    dropWhile_append_all Char.isDigit ip '.' frac hip hdot, hall, hemp]
  rfl

/-- The rendered string of `format_float`, as one character list. -/
theorem format_float_eq_mk (q : ℚ) (d : ℕ) :
    NVPCommand.format_float q d =
      String.mk ((if rhe (q * (10 : ℚ) ^ d) < 0 then ['-'] else []) ++
        (natDigits ((rhe (q * (10 : ℚ) ^ d)).natAbs / 10 ^ d) ++
          (if d = 0 then [] else
            '.' :: fracDigitsList ((rhe (q * (10 : ℚ) ^ d)).natAbs % 10 ^ d) d))) := by
  rw [NVPCommand.format_float]
  split_ifs <;> rfl

/-- Character classification of the rendered body (digits and the point). -/
theorem body_mem (m d : ℕ) (c : Char)
    (hc : c ∈ natDigits (m / 10 ^ d) ++
      (if d = 0 then [] else '.' :: fracDigitsList (m % 10 ^ d) d)) :
    (∃ k, c = digitChar k) ∨ c = '.' := by
  rcases List.mem_append.1 hc with h1 | h2
  · exact Or.inl (natDigits_mem _ c h1)
  · by_cases hd : d = 0
    · rw [if_pos hd] at h2; exact absurd h2 (by simp)
    · rw [if_neg hd] at h2
      rcases List.mem_cons.1 h2 with h3 | h4
      · exact Or.inr h3
      · exact Or.inl (fracDigitsList_mem d _ c h4)

/-- No character of the rendered body (nor a leading sign) is whitespace. -/
theorem render_not_white (m d : ℕ) (sign : List Char) (hsign : sign = ['-'] ∨ sign = [])
    (c : Char)
    (hc : c ∈ sign ++ (natDigits (m / 10 ^ d) ++
      (if d = 0 then [] else '.' :: fracDigitsList (m % 10 ^ d) d))) :
    isPyWhite c = false := by
  rcases List.mem_append.1 hc with h1 | h2
  · rcases hsign with h | h <;> rw [h] at h1
    · simp only [List.mem_singleton] at h1; subst h1; decide
    · exact absurd h1 (by simp)
  · rcases body_mem m d c h2 with ⟨k, rfl⟩ | rfl
    · exact (digitChar_spec k).2.2.1
    · decide

/-- Parsing the unsigned rendered body recovers `m / 10 ^ d` exactly. -/
theorem parse_body (m d : ℕ) :
    parseUnsignedFloat (natDigits (m / 10 ^ d) ++
        (if d = 0 then [] else '.' :: fracDigitsList (m % 10 ^ d) d)) =
      some ((m : ℚ) / (10 : ℚ) ^ d) := by
  have hip : ∀ c ∈ natDigits (m / 10 ^ d), c.isDigit = true := by
    intro c hc
    obtain ⟨k, rfl⟩ := natDigits_mem _ c hc
    exact (digitChar_spec k).1
  by_cases hd : d = 0
  · subst hd
    rw [if_pos rfl, List.append_nil, parseUnsignedFloat_digits _ hip (natDigits_ne_nil _),
      natDigits_val]
    norm_num
  · have hfrac : ∀ c ∈ fracDigitsList (m % 10 ^ d) d, c.isDigit = true := by
      intro c hc
      obtain ⟨k, rfl⟩ := fracDigitsList_mem d _ c hc
      exact (digitChar_spec k).1
    rw [if_neg hd, parseUnsignedFloat_point _ _ hip hfrac (natDigits_ne_nil _),
      natDigits_val, fracDigitsList_length, fracDigitsList_val,
      Nat.mod_mod_of_dvd m (dvd_refl (10 ^ d))]
    have hcast : ((10 : ℚ)) ^ d = ((10 ^ d : ℕ) : ℚ) := by push_cast; ring
    have h10 : ((10 ^ d : ℕ) : ℚ) ≠ 0 := by positivity
    have hdm : m / 10 ^ d * 10 ^ d + m % 10 ^ d = m := by
      rw [Nat.mul_comm]
      exact Nat.div_add_mod m (10 ^ d)
    rw [Option.some.injEq, hcast, eq_div_iff h10, add_mul, div_mul_cancel₀ _ h10]
    exact_mod_cast hdm

/-- Characters of a built string. -/
theorem toList_mk (l : List Char) : (String.mk l).toList = l := rfl

/-- Unfolding of `pySignedParse` on a non-empty list. -/
theorem pySignedParse_cons (c : Char) (l : List Char) :
    pySignedParse (c :: l) =
      if c = '-' then Option.map (fun q => -q) (parseUnsignedFloat l)
      else if c = '+' then parseUnsignedFloat l
      else parseUnsignedFloat (c :: l) := rfl

/-- Parsing the unsigned rendered string recovers `m / 10 ^ d`. -/
theorem pyFloat_mk_body (m d : ℕ) :
    pyFloat? (String.mk (natDigits (m / 10 ^ d) ++
        (if d = 0 then [] else '.' :: fracDigitsList (m % 10 ^ d) d))) =
      some ((m : ℚ) / (10 : ℚ) ^ d) := by
  have hwhite : ∀ c ∈ natDigits (m / 10 ^ d) ++
      (if d = 0 then [] else '.' :: fracDigitsList (m % 10 ^ d) d), isPyWhite c = false := by
    intro c hc
    exact render_not_white m d [] (Or.inr rfl) c (by simpa using hc)
  rw [pyFloat?, toList_mk, pyStripList_eq_self _ hwhite]
  cases hdig : natDigits (m / 10 ^ d) with
  | nil => exact absurd hdig (natDigits_ne_nil _)
  | cons c0 cs0 =>
      obtain ⟨k, hk⟩ := natDigits_mem (m / 10 ^ d) c0 (by rw [hdig]; simp)
      rw [List.cons_append, pySignedParse_cons, hk,
        if_neg (digitChar_spec k).2.2.2.2.1, if_neg (digitChar_spec k).2.2.2.2.2.1,
        ← hk, ← List.cons_append, ← hdig, parse_body]

/-- Parsing the negative rendered string recovers `-(m / 10 ^ d)`. -/
theorem pyFloat_mk_body_neg (m d : ℕ) :
    pyFloat? (String.mk ('-' :: (natDigits (m / 10 ^ d) ++
        (if d = 0 then [] else '.' :: fracDigitsList (m % 10 ^ d) d)))) =
      some (-((m : ℚ) / (10 : ℚ) ^ d)) := by
  have hwhite : ∀ c ∈ '-' :: (natDigits (m / 10 ^ d) ++
      (if d = 0 then [] else '.' :: fracDigitsList (m % 10 ^ d) d)), isPyWhite c = false := by
    intro c hc
    exact render_not_white m d ['-'] (Or.inl rfl) c (by simpa using hc)
  rw [pyFloat?, toList_mk, pyStripList_eq_self _ hwhite, pySignedParse_cons, if_pos rfl,
    parse_body]
  rfl

/-- Round trip: parsing the rendered string of `format_float` yields
exactly the rounded value `rhe (q * 10 ^ d) / 10 ^ d`. -/
theorem pyFloat_format_float (q : ℚ) (d : ℕ) :
    pyFloat? (NVPCommand.format_float q d) =
      some (((rhe (q * (10 : ℚ) ^ d) : ℤ) : ℚ) / (10 : ℚ) ^ d) := by
  rw [format_float_eq_mk]
  by_cases hn : rhe (q * (10 : ℚ) ^ d) < 0
  · rw [if_pos hn]
    simp only [List.singleton_append]
    rw [pyFloat_mk_body_neg, Option.some.injEq, Int.cast_natAbs, abs_of_neg hn]
    push_cast
    ring
  · rw [if_neg hn, List.nil_append, pyFloat_mk_body, Option.some.injEq, Int.cast_natAbs,
      abs_of_nonneg (not_lt.1 hn)]

/-- Round-half-to-even is within a half of its argument. -/
theorem rhe_abs (x : ℚ) : |((rhe x : ℤ) : ℚ) - x| ≤ 1 / 2 := by
  simp only [rhe]
  have h0 : (0 : ℚ) ≤ x - ⌊x⌋ := sub_nonneg.2 (Int.floor_le x)
  have h1 : x - ⌊x⌋ < 1 := by
    have := Int.lt_floor_add_one x
    linarith
  split_ifs with ha hb hc
  · rw [abs_sub_comm, abs_of_nonneg h0]
    linarith
  · push_cast
    rw [abs_of_nonneg (by linarith)]
    linarith
  · have hmid : x - ⌊x⌋ = 1 / 2 := le_antisymm (not_lt.1 hb) (not_lt.1 ha)
    rw [abs_sub_comm, abs_of_nonneg h0]
    linarith
  · have hmid : x - ⌊x⌋ = 1 / 2 := le_antisymm (not_lt.1 hb) (not_lt.1 ha)
    push_cast
    rw [abs_of_nonneg (by linarith)]
    linarith

/-- Character classification of a rendered `format_float` string. -/
theorem render_chars (q : ℚ) (d : ℕ) (c : Char)
    (hc : c ∈ (NVPCommand.format_float q d).toList) :
    (∃ k, c = digitChar k) ∨ c = '.' ∨ c = '-' := by
  rw [format_float_eq_mk, toList_mk] at hc
  rcases List.mem_append.1 hc with h1 | h2
  · by_cases hn : rhe (q * (10 : ℚ) ^ d) < 0
    · rw [if_pos hn] at h1
      simp only [List.mem_singleton] at h1
      exact Or.inr (Or.inr h1)
    · rw [if_neg hn] at h1
      exact absurd h1 (by simp)
  · rcases body_mem _ d c h2 with h | h
    · exact Or.inl h
    · exact Or.inr (Or.inl h)

/-- C6: the command encoder renders a numeric argument in fixed-point
notation — never scientific — with exactly `d` digits after the decimal
point for every magnitude; parsing the rendered segment back recovers the
value within `10 ^ -d` absolute error; and the two wire-format examples
encode byte-exactly: `f2450.0000000` at the default 7 digits and `W-20.000`
at 3 digits. -/
theorem C6_fixed_point_encoding :
    (∀ (q : ℚ) (d : ℕ), ∃ r : ℚ,
        pyFloat? (NVPCommand.format_float q d) = some r ∧ |r - q| ≤ 1 / (10 : ℚ) ^ d) ∧
    (∀ (q : ℚ) (d : ℕ), 'e' ∉ (NVPCommand.format_float q d).toList ∧
        'E' ∉ (NVPCommand.format_float q d).toList) ∧
    (∀ (q : ℚ) (d : ℕ), 0 < d → ∃ pre post,
        (NVPCommand.format_float q d).toList = pre ++ '.' :: post ∧ post.length = d ∧
        (∀ c ∈ post, c.isDigit = true) ∧ '.' ∉ pre) ∧
    NVPCommand.format NVPCommand.SET_FREQUENCY_MHZ false (some (PyArg.num 2450)) 7 =
      "f2450.0000000" ∧
    NVPCommand.format NVPCommand.SET_RF_POWER_dBm false (some (PyArg.num (-20))) 3 =
      "W-20.000" := by
  refine ⟨fun q d => ?_, fun q d => ?_, fun q d hd => ?_, ?_, ?_⟩
  · refine ⟨((rhe (q * (10 : ℚ) ^ d) : ℤ) : ℚ) / (10 : ℚ) ^ d, pyFloat_format_float q d, ?_⟩
    have hpow : (0 : ℚ) < (10 : ℚ) ^ d := by positivity
    have heq : ((rhe (q * (10 : ℚ) ^ d) : ℤ) : ℚ) / (10 : ℚ) ^ d - q =
        (((rhe (q * (10 : ℚ) ^ d) : ℤ) : ℚ) - q * (10 : ℚ) ^ d) / (10 : ℚ) ^ d := by
      field_simp
      ring
    rw [heq, abs_div, abs_of_pos hpow]
    have h1 := rhe_abs (q * (10 : ℚ) ^ d)
    have h2 := (div_le_div_iff_of_pos_right hpow).2 h1
    have h3 : ((1 : ℚ) / 2) / (10 : ℚ) ^ d ≤ 1 / (10 : ℚ) ^ d :=
      (div_le_div_iff_of_pos_right hpow).2 (by norm_num)
    linarith
  · constructor <;> intro hc <;>
      rcases render_chars q d _ hc with ⟨k, hk⟩ | h | h
    · exact (digitChar_spec k).2.2.2.2.2.2.1 hk.symm
    · exact absurd h (by decide)
    · exact absurd h (by decide)
    · exact (digitChar_spec k).2.2.2.2.2.2.2 hk.symm
    · exact absurd h (by decide)
    · exact absurd h (by decide)
  · refine ⟨(if rhe (q * (10 : ℚ) ^ d) < 0 then ['-'] else []) ++
      natDigits ((rhe (q * (10 : ℚ) ^ d)).natAbs / 10 ^ d),
      fracDigitsList ((rhe (q * (10 : ℚ) ^ d)).natAbs % 10 ^ d) d,
      ?_, fracDigitsList_length d _, ?_, ?_⟩
    · rw [format_float_eq_mk, toList_mk, if_neg (Nat.pos_iff_ne_zero.1 hd),
        ← List.append_assoc]
    · intro c hc
      obtain ⟨k, rfl⟩ := fracDigitsList_mem d _ c hc
      exact (digitChar_spec k).1
    · intro hc
      rcases List.mem_append.1 hc with h1 | h2
      · by_cases hn : rhe (q * (10 : ℚ) ^ d) < 0
        · rw [if_pos hn] at h1
          simp only [List.mem_singleton] at h1
          exact absurd h1 (by decide)
        · rw [if_neg hn] at h1
          exact absurd h1 (by simp)
      · obtain ⟨k, hk⟩ := natDigits_mem _ _ h2
        exact (digitChar_spec k).2.2.2.1 hk.symm
  · have h : NVPCommand.format_float 2450 7 = "2450.0000000" := by
      rw [format_float_eval 2450 7 24500000000 (by norm_num)]
      decide
    simp only [NVPCommand.format, pyArgStr, h]
    rfl
  · have h : NVPCommand.format_float (-20) 3 = "-20.000" := by
      rw [format_float_eval (-20) 3 (-20000) (by norm_num)]
      decide
    simp only [NVPCommand.format, pyArgStr, h]
    rfl

/-- C6 witness: the digit-count clause of the theorem applied at value 5 and
7 digits. -/
theorem C6_fixed_point_encoding_witness :
    0 < 7 ∧ ∃ pre post, (NVPCommand.format_float 5 7).toList = pre ++ '.' :: post ∧
      post.length = 7 ∧ (∀ c ∈ post, c.isDigit = true) ∧ '.' ∉ pre :=
  ⟨by decide, C6_fixed_point_encoding.2.2.1 5 7 (by decide)⟩
